import Mathlib

/-!
Shallow embedding of the download queue of `src/feedback/downloads.py`
(module `feedback.downloads`): the `DownloadStatus` enum, the
`DownloadItem` record, and the `DownloadQueue` operations `add`,
`add_batch`, `cancel`, `cancel_all`, `clear_completed`, the admission pass
`_process_queue` and the terminal phase of the worker `_download`.

Modelling conventions:
* Python floats are modelled as `ℚ` (all arithmetic performed on
  `progress` is of the form `bytes / total` and the constants `0.0`,
  `1.0`, so the real-versus-float distinction does not affect any claim
  checked here; the one claim about rounding is settled at inputs where
  float rounding agrees with exact arithmetic).
* `pathlib.Path` values are modelled as strings; `download_dir / filename`
  is string concatenation with `"/"`.
* The asyncio operations are modelled at the granularity of the
  lock-protected regions of the source, which execute atomically: each
  Lean function below is one such atomic region (or a composition of the
  regions one Python call runs through).  `asyncio.create_task` is
  modelled by recording a `Worker` with a fresh task id;
  `task.cancel()` is modelled by setting the `cancelled` flag of that
  worker.  A worker whose `cancelled` flag is false is still running and
  may later execute the terminal phase of `_download`.
* `dict` (`DownloadQueue._active`) is an association list with unique
  keys; assignment to an existing key overwrites in place, `del` /
  `pop` removes the key, `len` is the list length.
* The Python `DownloadItem` is a mutable object referenced both from
  `DownloadQueue._queue` and from the closure of its worker.  Here the
  queue is the list of items and a worker refers to its item by the
  position the item had in `_queue` when the worker was spawned; in
  every scenario used below no item is removed while a worker holds a
  reference, so positions are stable and this matches Python object
  identity.
-/

namespace Feedback

/-- Embeds `DownloadStatus` (an `IntEnum` with values PENDING = 0,
DOWNLOADING = 1, COMPLETED = 2, FAILED = 3, CANCELLED = 4). -/
inductive DownloadStatus where
  | pending
  | downloading
  | completed
  | failed
  | cancelled
deriving DecidableEq, Repr

/-- Embeds the dataclass `DownloadItem` (downloads.py lines 27-43).
`destination` is a `Path` in the source, modelled as a string. -/
structure DownloadItem where
  url : String
  destination : String
  status : DownloadStatus := DownloadStatus.pending
  progress : ℚ := 0
  bytes_downloaded : ℕ := 0
  total_bytes : ℕ := 0
  error : Option String := none
  episode_id : Option ℤ := none
deriving DecidableEq, Repr

/-- Python `int(q)` on a float/rational: truncation toward zero. -/
def pyInt (q : ℚ) : ℤ :=
  if 0 ≤ q then ⌊q⌋ else ⌈q⌉

/-- Embeds the property `DownloadItem.progress_percent`
(downloads.py lines 40-43): `int(self.progress * 100)`. -/
def DownloadItem.progress_percent (item : DownloadItem) : ℤ :=
  pyInt (item.progress * 100)

/-- The membership test `status in (PENDING, DOWNLOADING)` used by
`cancel` (line 186) and `cancel_all` (line 212). -/
def cancellable : DownloadStatus → Bool
  | DownloadStatus.pending => true
  | DownloadStatus.downloading => true
  | _ => false

/-- The membership test `status in (COMPLETED, FAILED, CANCELLED)` used by
`clear_completed` (lines 229-235). -/
def terminal : DownloadStatus → Bool
  | DownloadStatus.completed => true
  | DownloadStatus.failed => true
  | DownloadStatus.cancelled => true
  | _ => false

/-- One spawned asyncio task: its id, the url it downloads, the position
of its item in the queue at spawn time (the Python object reference),
and whether `task.cancel()` has been called on it. -/
structure Worker where
  task : ℕ
  url : String
  itemIdx : ℕ
  cancelled : Bool
deriving DecidableEq, Repr

/-- Embeds the mutable state of a `DownloadQueue` (downloads.py lines
46-59): the configuration fields, `_queue`, `_active` (as an
association list with unique keys) plus the bookkeeping that models the
asyncio runtime (`workers`, `nextTask`). -/
structure QueueState where
  download_dir : String
  max_concurrent : ℕ := 3
  queue : List DownloadItem := []
  active : List (String × ℕ) := []
  workers : List Worker := []
  nextTask : ℕ := 0
deriving Repr

/-- Python dict assignment `m[k] = v`: overwrite in place if the key is
present, else append. -/
def dictInsert : List (String × ℕ) → String → ℕ → List (String × ℕ)
  | [], k, v => [(k, v)]
  | (k₀, v₀) :: rest, k, v =>
      if k₀ = k then (k, v) :: rest else (k₀, v₀) :: dictInsert rest k v

/-- Python `del m[k]` / `m.pop(k, None)`: remove the key if present. -/
def dictRemove (m : List (String × ℕ)) (k : String) : List (String × ℕ) :=
  m.filter (fun p => ¬(p.1 = k))

/-- Python `m.get(k)` / `k in m` combined: the value at key `k`. -/
def dictGet (m : List (String × ℕ)) (k : String) : Option ℕ :=
  (m.find? (fun p => p.1 = k)).map (fun p => p.2)

/-- Marks the worker with task id `t` as cancelled (`task.cancel()`). -/
def markCancelled (ws : List Worker) (t : ℕ) : List Worker :=
  ws.map (fun w => if w.task = t then { w with cancelled := true } else w)

/-- Spawns a worker for the item at position `i` of the queue: the body of
the admission loop of `_process_queue` (downloads.py lines 273-275):
`item.status = DOWNLOADING; task = asyncio.create_task(self._download(item));
self._active[item.url] = task`. -/
def startWorker (s : QueueState) (i : ℕ) (item : DownloadItem) : QueueState :=
  { s with
    queue := s.queue.set i { item with status := DownloadStatus.downloading }
    active := dictInsert s.active item.url s.nextTask
    workers := s.workers ++ [⟨s.nextTask, item.url, i, false⟩]
    nextTask := s.nextTask + 1 }

/-- The `for item in pending` loop of `_process_queue` (downloads.py lines
269-275), iterating over positions of the pending snapshot; breaks when
`len(self._active) >= self.max_concurrent`. -/
def processLoop : QueueState → List ℕ → QueueState
  | s, [] => s
  | s, i :: rest =>
      if s.max_concurrent ≤ s.active.length then s
      else
        match s.queue.get? i with
        | none => processLoop s rest
        | some item => processLoop (startWorker s i item) rest

/-- Embeds `DownloadQueue._process_queue` (downloads.py lines 260-275):
snapshot the positions of the Pending items, then start workers for them in order up
to the concurrency cap. -/
def process_queue (s : QueueState) : QueueState :=
  let pending := (List.range s.queue.length).filter
    (fun i => match s.queue.get? i with
      | some item => item.status = DownloadStatus.pending
      | none => false)
  processLoop s pending

/-- Python `s.split(sep)` for a one-character separator, on the character
list of the string: split at every occurrence of `sep`, keeping empty
pieces, so the result always has one more piece than there are
occurrences of `sep` (in particular `"".split(sep) == [""]`). -/
def splitChar (sep : Char) : List Char → List (List Char)
  | [] => [[]]
  | c :: rest =>
      match splitChar sep rest with
      | [] => [[]]
      | g :: gs => if c = sep then [] :: g :: gs else (c :: g) :: gs

/-- Python `s.split(sep)` on strings (one-character separator). -/
def pySplit (s : String) (sep : Char) : List String :=
  (splitChar sep s.data).map (fun l => ⟨l⟩)

/-- The filename derivation of `add` (downloads.py lines 111-115):
`filename = url.split("/")[-1].split("?")[0]`, replaced by
`f"download_{len(self._queue)}"` when empty.  `n` is `len(self._queue)`
at the time of the call. -/
def deriveFilename (url : String) (n : ℕ) : String :=
  let filename := (pySplit ((pySplit url '/').getLastD "") '?').headD ""
  if filename = "" then "download_" ++ toString n else filename

/-- Embeds `DownloadQueue.add` (downloads.py lines 95-131).  Returns the
new state and the position of the created item (the Python return value
is the reference to that item; `get?` at the returned position reads its
current state). -/
def add (s : QueueState) (url : String) (filename : Option String)
    (episode_id : Option ℤ) : QueueState × ℕ :=
  let fname := match filename with
    | some f => f
    | none => deriveFilename url s.queue.length
  let destination := s.download_dir ++ "/" ++ fname
  let item : DownloadItem :=
    { url := url, destination := destination, episode_id := episode_id }
  let idx := s.queue.length
  let s₁ := { s with queue := s.queue ++ [item] }
  (process_queue s₁, idx)

/-- Embeds `DownloadQueue.add_batch` (downloads.py lines 133-167): append
every entry under one lock acquisition, then one admission pass.
Returns the new state and the positions of the created items. -/
def add_batch (s : QueueState)
    (downloads : List (String × Option String × Option ℤ)) :
    QueueState × List ℕ :=
  let step := fun (acc : QueueState × List ℕ) (d : String × Option String × Option ℤ) =>
    let (s, idxs) := acc
    let (url, filename, episode_id) := d
    let fname := match filename with
      | some f => f
      | none => deriveFilename url s.queue.length
    let destination := s.download_dir ++ "/" ++ fname
    let item : DownloadItem :=
      { url := url, destination := destination, episode_id := episode_id }
    ({ s with queue := s.queue ++ [item] }, idxs ++ [s.queue.length])
  let (s₁, idxs) := downloads.foldl step (s, [])
  (process_queue s₁, idxs)

/-- The `for item in self._queue` scan of `cancel` (downloads.py lines
184-191): flip the first item whose url matches and whose status is
Pending or Downloading, return `True`; `False` when no item matches. -/
def cancelScan : List DownloadItem → String → List DownloadItem × Bool
  | [], _ => ([], false)
  | item :: rest, url =>
      if item.url = url ∧ cancellable item.status then
        ({ item with status := DownloadStatus.cancelled } :: rest, true)
      else
        let r := cancelScan rest url
        (item :: r.1, r.2)

/-- Embeds `DownloadQueue.cancel` (downloads.py lines 169-193): if the url
is in `_active`, cancel that task and delete the entry; then scan the
queue for the first cancellable item with that url. -/
def cancel (s : QueueState) (url : String) : QueueState × Bool :=
  let s₁ := match dictGet s.active url with
    | some t =>
        { s with workers := markCancelled s.workers t
                 active := dictRemove s.active url }
    | none => s
  let r := cancelScan s₁.queue url
  ({ s₁ with queue := r.1 }, r.2)

/-- Embeds `DownloadQueue.cancel_all` (downloads.py lines 195-216): count
and cancel every active task, clear `_active`, then flip every Pending or
Downloading item to Cancelled, counting again. -/
def cancel_all (s : QueueState) : QueueState × ℕ :=
  let fromActive := s.active.length
  let workers := s.active.foldl (fun ws p => markCancelled ws p.2) s.workers
  let fromQueue := (s.queue.filter (fun item => cancellable item.status)).length
  let queue := s.queue.map (fun item =>
    if cancellable item.status then { item with status := DownloadStatus.cancelled }
    else item)
  ({ s with active := [], workers := workers, queue := queue },
   fromActive + fromQueue)

/-- Embeds `DownloadQueue.clear_completed` (downloads.py lines 218-236):
keep the items whose status is not in `(COMPLETED, FAILED, CANCELLED)`,
return `before - after`. -/
def clear_completed (s : QueueState) : QueueState × ℕ :=
  let before := s.queue.length
  let queue := s.queue.filter (fun item => ¬ terminal item.status)
  ({ s with queue := queue }, before - queue.length)

/-- Embeds `DownloadQueue.get_item` (downloads.py lines 246-258): first
item with the given url. -/
def get_item (s : QueueState) (url : String) : Option DownloadItem :=
  s.queue.find? (fun item => item.url = url)

/-- The HTTP response a worker streams: status code, optional
`content-length` header and the byte lengths of the chunks that
`response.aiter_bytes(self.chunk_size)` yields.  In HTTP, when a
`content-length` header is present the transport frames the body to
exactly that many bytes; theorems state this as the hypothesis
`chunks.sum = n`. -/
structure Response where
  status_code : ℕ
  contentLength : Option ℕ
  chunks : List ℕ
deriving Repr

/-- The body of the chunk loop of `_download` (downloads.py lines
301-306): `item.bytes_downloaded += len(chunk)`; when `total_bytes > 0`,
`item.progress = item.bytes_downloaded / item.total_bytes`. -/
def chunkStep (item : DownloadItem) (len : ℕ) : DownloadItem :=
  let item₁ := { item with bytes_downloaded := item.bytes_downloaded + len }
  if 0 < item₁.total_bytes then
    { item₁ with progress := (item₁.bytes_downloaded : ℚ) / (item₁.total_bytes : ℚ) }
  else item₁

/-- The chunk loop of `_download` (downloads.py lines 301-309): runs
`chunkStep` for every chunk and records the snapshot passed to the
progress callback after each chunk.  Returns the item after the loop and
the list of callback snapshots. -/
def chunkLoop : DownloadItem → List ℕ → DownloadItem × List DownloadItem
  | item, [] => (item, [])
  | item, len :: rest =>
      let item₁ := chunkStep item len
      let r := chunkLoop item₁ rest
      (r.1, item₁ :: r.2)

/-- The header phase of `_download` (downloads.py lines 294-297):
`total = response.headers.get("content-length"); if total:
item.total_bytes = int(total)`.  The `if total:` test is false exactly
when the header is absent, modelled by `none`. -/
def applyContentLength (item : DownloadItem) (resp : Response) : DownloadItem :=
  match resp.contentLength with
  | some n => { item with total_bytes := n }
  | none => item

/-- The success path of `_download` through the streaming phase
(downloads.py lines 283-313): set `total_bytes` from the
`content-length` header when present, run the chunk loop, then
`item.status = COMPLETED; item.progress = 1.0`.  Returns the final item
and the chunk-callback snapshots.  A worker that is interrupted after
`k` chunks (transport error, IO error, cancellation) instead observes
exactly the snapshots of `chunkLoop (applyContentLength item resp)
(resp.chunks.take k)` before its exception arm runs. -/
def downloadSuccess (item : DownloadItem) (resp : Response) :
    DownloadItem × List DownloadItem :=
  let r := chunkLoop (applyContentLength item resp) resp.chunks
  ({ r.1 with status := DownloadStatus.completed, progress := 1 }, r.2)

/-- Outcomes of one worker run, matching the exception arms of
`_download` (downloads.py lines 311-332). -/
inductive WorkerOutcome where
  | success
  | httpStatusError (code : ℕ)
  | requestError (msg : String)
  | osError (msg : String)
  | cancelledError
deriving DecidableEq, Repr

/-- The mutation `_download` performs on its item when the try body ends
or an exception arm runs (downloads.py lines 311-332):
success sets `COMPLETED` and `progress = 1.0`; `httpx.HTTPStatusError e`
sets `FAILED` and `error = f"HTTP {e.response.status_code}"`;
`httpx.RequestError e` sets `FAILED` and `error = str(e)`; `OSError e`
sets `FAILED` and `error = f"IO error: {e}"`; `asyncio.CancelledError`
sets `CANCELLED`. -/
def finishItem (item : DownloadItem) : WorkerOutcome → DownloadItem
  | WorkerOutcome.success =>
      { item with status := DownloadStatus.completed, progress := 1 }
  | WorkerOutcome.httpStatusError code =>
      { item with status := DownloadStatus.failed
                  error := some ("HTTP " ++ toString code) }
  | WorkerOutcome.requestError msg =>
      { item with status := DownloadStatus.failed, error := some msg }
  | WorkerOutcome.osError msg =>
      { item with status := DownloadStatus.failed
                  error := some ("IO error: " ++ msg) }
  | WorkerOutcome.cancelledError =>
      { item with status := DownloadStatus.cancelled }

/-- The `finally` block of `_download` (downloads.py lines 334-343) for
the worker with task id `t`, composed with the item mutation of the arm
that ran: mutate the item, `self._active.pop(item.url, None)` (by url,
whichever task is registered there), then `_process_queue`.  This step is
taken by a worker that is still running, i.e. one whose task was never
cancelled (a cancelled task instead runs the `CancelledError` arm). -/
def workerFinish (s : QueueState) (t : ℕ) (o : WorkerOutcome) : QueueState :=
  match s.workers.find? (fun w => w.task = t) with
  | none => s
  | some w =>
      match s.queue.get? w.itemIdx with
      | none => s
      | some item =>
          let s₁ := { s with
            queue := s.queue.set w.itemIdx (finishItem item o)
            active := dictRemove s.active item.url }
          process_queue s₁

/-! Concrete scenario states used to settle the claims about executions. -/

/-- A queue as built by `DownloadQueue(download_dir=..., max_concurrent=cap)`:
empty queue, no active tasks. -/
def qInit (cap : ℕ) : QueueState :=
  { download_dir := "dl", max_concurrent := cap }

/-- State after `add("u")` three times on a queue with `max_concurrent = 2`,
before any worker makes progress (no suspension point of any worker task
has run yet, which asyncio permits since `add` never awaits the network). -/
def dupTriple : QueueState :=
  (add ((add ((add (qInit 2) "u" none none).1) "u" none none).1) "u" none none).1

/-- State after `add("u")` twice on a queue with `max_concurrent = 2`:
both items are Downloading, but `_active` holds only the second task
because the dict assignment overwrote the entry of the first under the
shared key `"u"`. -/
def dupPair : QueueState :=
  (add ((add (qInit 2) "u" none none).1) "u" none none).1

/-- State after `cancel("u")` on `dupPair`: the registered task (the
second) is cancelled and the first matching item (item 0) is flipped to
Cancelled, while the worker of item 0 is still running and was never
cancelled. -/
def dupPairCancelled : QueueState :=
  (cancel dupPair "u").1

/-- State after five `add` calls with distinct urls on a queue with
`max_concurrent = 2`: items 0 and 1 are Downloading with active tasks,
items 2, 3, 4 are Pending. -/
def fiveState : QueueState :=
  (add ((add ((add ((add ((add (qInit 2) "u1" none none).1)
    "u2" none none).1) "u3" none none).1) "u4" none none).1) "u5" none none).1

/-- A `DownloadItem` whose progress is 0.999, as reported mid-transfer. -/
def itemNearDone : DownloadItem :=
  { url := "u", destination := "d", progress := 999/1000 }

/-- A freshly admitted item, exactly as a worker receives it: status
Downloading, no bytes, no progress, unknown total. -/
def freshItem : DownloadItem :=
  { url := "u", destination := "d", status := DownloadStatus.downloading }

/-- The response of Scenario B of the spec: 200, `content-length: 1000`,
body delivered in ten chunks of 100 bytes (`chunk_size = 100`). -/
def resp1000 : Response :=
  { status_code := 200, contentLength := some 1000, chunks := List.replicate 10 100 }

/-! Helper lemmas. -/

theorem cancellable_iff (st : DownloadStatus) :
    cancellable st = true ↔
      st = DownloadStatus.pending ∨ st = DownloadStatus.downloading := by
  cases st <;> simp [cancellable]

theorem terminal_false_of_cancellable (st : DownloadStatus)
    (h : terminal st = true) : cancellable st = false := by
  cases st <;> simp_all [cancellable, terminal]

theorem cancelScan_true_iff (q : List DownloadItem) (url : String) :
    (cancelScan q url).2 = true ↔
      ∃ it ∈ q, it.url = url ∧ cancellable it.status = true := by
  induction q with
  | nil => simp [cancelScan]
  | cons a rest ih =>
      by_cases h : a.url = url ∧ cancellable a.status
      · simp [cancelScan, h]
      · simp only [cancelScan, if_neg h]
        simp only [List.mem_cons, ih]
        constructor
        · rintro ⟨it, hit, hu, hc⟩
          exact ⟨it, Or.inr hit, hu, hc⟩
        · rintro ⟨it, hit | hit, hu, hc⟩
          · exact absurd ⟨hit ▸ hu, hit ▸ hc⟩ h
          · exact ⟨it, hit, hu, hc⟩

theorem cancelScan_get?_of_not_match (q : List DownloadItem) (url : String)
    (i : ℕ) (it : DownloadItem) (h : q.get? i = some it)
    (hne : ¬(it.url = url ∧ cancellable it.status = true)) :
    (cancelScan q url).1.get? i = some it := by
  induction q generalizing i with
  | nil => simp at h
  | cons a rest ih =>
      by_cases hc : a.url = url ∧ cancellable a.status
      · cases i with
        | zero =>
            simp only [List.get?_cons_zero, Option.some.injEq] at h
            exact absurd ⟨h ▸ hc.1, h ▸ hc.2⟩ hne
        | succ n =>
            simp only [cancelScan, if_pos hc]
            simpa using h
      · cases i with
        | zero =>
            simp only [cancelScan, if_neg hc]
            simpa using h
        | succ n =>
            simp only [cancelScan, if_neg hc, List.get?_cons_succ]
            exact ih n (by simpa using h)

theorem cancelScan_set_of_first_match (q : List DownloadItem) (url : String)
    (j : ℕ) (it : DownloadItem) (hj : q.get? j = some it)
    (hmatch : it.url = url ∧ cancellable it.status = true)
    (hbefore : ∀ i it₂, i < j → q.get? i = some it₂ →
      ¬(it₂.url = url ∧ cancellable it₂.status = true)) :
    (cancelScan q url).1 =
      q.set j { it with status := DownloadStatus.cancelled } := by
  induction q generalizing j with
  | nil => simp at hj
  | cons a rest ih =>
      cases j with
      | zero =>
          simp only [List.get?_cons_zero, Option.some.injEq] at hj
          subst hj
          simp only [cancelScan, if_pos hmatch, List.set_cons_zero]
      | succ n =>
          have ha : ¬(a.url = url ∧ cancellable a.status = true) :=
            hbefore 0 a (Nat.succ_pos n) rfl
          simp only [cancelScan, if_neg ha, List.set_cons_succ, List.cons.injEq]
          refine ⟨trivial, ih n (by simpa using hj) ?_⟩
          intro i it₂ hi h₂
          exact hbefore (i + 1) it₂ (Nat.succ_lt_succ hi) (by simpa using h₂)

theorem cancelScan_id_of_no_match (q : List DownloadItem) (url : String)
    (h : ∀ it ∈ q, ¬(it.url = url ∧ cancellable it.status = true)) :
    cancelScan q url = (q, false) := by
  induction q with
  | nil => rfl
  | cons a rest ih =>
      have ha : ¬(a.url = url ∧ cancellable a.status = true) :=
        h a (List.mem_cons_self a rest)
      have hr := ih (fun it hit => h it (List.mem_cons_of_mem a hit))
      simp [cancelScan, if_neg ha, hr]

theorem cancel_queue_eq (s : QueueState) (url : String) :
    (cancel s url).1.queue = (cancelScan s.queue url).1 ∧
    (cancel s url).2 = (cancelScan s.queue url).2 := by
  unfold cancel
  cases dictGet s.active url <;> simp

theorem startWorker_get? (s : QueueState) (j : ℕ) (item : DownloadItem) (i : ℕ) :
    (startWorker s j item).queue.get? i = s.queue.get? i ∨
    (i = j ∧ (startWorker s j item).queue.get? i =
      some { item with status := DownloadStatus.downloading }) := by
  simp only [startWorker, List.get?_eq_getElem?]
  by_cases h : i = j
  · subst h
    by_cases hlt : i < s.queue.length
    · exact Or.inr ⟨rfl, by rw [List.getElem?_set_eq_of_lt _ hlt]⟩
    · left
      rw [List.getElem?_set]
      simp [hlt, List.getElem?_eq_none (le_of_not_lt hlt)]
  · exact Or.inl (List.getElem?_set_ne (fun hh => h hh.symm))

theorem downloading_idem (it : DownloadItem) :
    ({ { it with status := DownloadStatus.downloading } with
        status := DownloadStatus.downloading } : DownloadItem) =
      { it with status := DownloadStatus.downloading } := rfl

theorem processLoop_get? (idxs : List ℕ) (s : QueueState) (i : ℕ) :
    (processLoop s idxs).queue.get? i = s.queue.get? i ∨
    ∃ it, s.queue.get? i = some it ∧
      (processLoop s idxs).queue.get? i =
        some { it with status := DownloadStatus.downloading } := by
  induction idxs generalizing s with
  | nil => exact Or.inl rfl
  | cons j rest ih =>
      simp only [processLoop]
      by_cases hcap : s.max_concurrent ≤ s.active.length
      · rw [if_pos hcap]; exact Or.inl rfl
      · rw [if_neg hcap]
        cases hq : s.queue.get? j with
        | none => exact ih s
        | some item =>
            rcases ih (startWorker s j item) with h | ⟨it, hit, hres⟩
            · rcases startWorker_get? s j item i with ha | ⟨hij, ha⟩
              · exact Or.inl (h.trans ha)
              · subst hij
                exact Or.inr ⟨item, hq, h.trans ha⟩
            · rcases startWorker_get? s j item i with ha | ⟨hij, ha⟩
              · rw [ha] at hit
                exact Or.inr ⟨it, hit, hres⟩
              · subst hij
                rw [ha] at hit
                simp only [Option.some.injEq] at hit
                refine Or.inr ⟨item, hq, ?_⟩
                rw [hres, ← hit, downloading_idem]

theorem length_sub_filter_not_terminal (l : List DownloadItem) :
    l.length - (l.filter (fun item => ¬ terminal item.status)).length
      = (l.filter (fun item => terminal item.status)).length := by
  simp only [decide_not, Bool.decide_coe]
  induction l with
  | nil => rfl
  | cons a l ih =>
      have hle := List.length_filter_le (fun item => !terminal item.status) l
      cases h : terminal a.status <;> simp [List.filter_cons, h] <;> omega

theorem chunkStep_bytes (item : DownloadItem) (len : ℕ) :
    (chunkStep item len).bytes_downloaded = item.bytes_downloaded + len := by
  simp only [chunkStep]
  split <;> rfl

theorem chunkStep_total (item : DownloadItem) (len : ℕ) :
    (chunkStep item len).total_bytes = item.total_bytes := by
  simp only [chunkStep]
  split <;> rfl

theorem chunkStep_status (item : DownloadItem) (len : ℕ) :
    (chunkStep item len).status = item.status := by
  simp only [chunkStep]
  split <;> rfl

theorem chunkStep_error (item : DownloadItem) (len : ℕ) :
    (chunkStep item len).error = item.error := by
  simp only [chunkStep]
  split <;> rfl

theorem chunkStep_progress_pos (item : DownloadItem) (len : ℕ)
    (hT : 0 < item.total_bytes) :
    (chunkStep item len).progress =
      ((item.bytes_downloaded + len : ℕ) : ℚ) / (item.total_bytes : ℚ) := by
  simp only [chunkStep]
  rw [if_pos hT]

theorem chunkStep_progress_zero (item : DownloadItem) (len : ℕ)
    (hT : item.total_bytes = 0) :
    (chunkStep item len).progress = item.progress := by
  simp only [chunkStep]
  rw [if_neg (by simp [hT])]

theorem chunkLoop_spec (chunks : List ℕ) (item : DownloadItem)
    (h0 : 0 ≤ item.progress)
    (h1 : 0 < item.total_bytes →
      item.progress ≤ (item.bytes_downloaded : ℚ) / (item.total_bytes : ℚ))
    (h2 : item.total_bytes = 0 → item.progress ≤ 1)
    (h3 : 0 < item.total_bytes →
      item.bytes_downloaded + chunks.sum ≤ item.total_bytes) :
    (∀ o ∈ (chunkLoop item chunks).2, 0 ≤ o.progress ∧ o.progress ≤ 1) ∧
    List.Chain' (fun a b => a ≤ b)
      (item.progress :: ((chunkLoop item chunks).2.map (fun o => o.progress))) ∧
    (chunkLoop item chunks).1.bytes_downloaded
      = item.bytes_downloaded + chunks.sum ∧
    (chunkLoop item chunks).1.total_bytes = item.total_bytes ∧
    (chunkLoop item chunks).1.status = item.status ∧
    (chunkLoop item chunks).1.error = item.error := by
  induction chunks generalizing item with
  | nil =>
      refine ⟨by simp [chunkLoop], by simp [chunkLoop], by simp [chunkLoop], rfl, rfl, rfl⟩
  | cons len rest ih =>
      have eb := chunkStep_bytes item len
      have et := chunkStep_total item len
      have es := chunkStep_status item len
      have ee := chunkStep_error item len
      -- Bounds carried to the item after one chunk.
      have h0' : 0 ≤ (chunkStep item len).progress := by
        by_cases hT : 0 < item.total_bytes
        · rw [chunkStep_progress_pos item len hT]
          positivity
        · rw [chunkStep_progress_zero item len (by omega)]
          exact h0
      have h1' : 0 < (chunkStep item len).total_bytes →
          (chunkStep item len).progress ≤
            ((chunkStep item len).bytes_downloaded : ℚ) /
              ((chunkStep item len).total_bytes : ℚ) := by
        intro hT
        rw [et] at hT
        rw [chunkStep_progress_pos item len hT, eb, et]
      have h2' : (chunkStep item len).total_bytes = 0 →
          (chunkStep item len).progress ≤ 1 := by
        intro hT
        rw [et] at hT
        rw [chunkStep_progress_zero item len hT]
        exact h2 hT
      have h3' : 0 < (chunkStep item len).total_bytes →
          (chunkStep item len).bytes_downloaded + rest.sum
            ≤ (chunkStep item len).total_bytes := by
        intro hT
        rw [et] at hT
        rw [eb, et]
        have := h3 hT
        simp only [List.sum_cons] at this
        omega
      -- The snapshot after this chunk is within bounds.
      have hone : (chunkStep item len).progress ≤ 1 := by
        by_cases hT : 0 < item.total_bytes
        · rw [chunkStep_progress_pos item len hT]
          rw [div_le_one (by exact_mod_cast hT)]
          have := h3 hT
          simp only [List.sum_cons] at this
          exact_mod_cast (by omega : item.bytes_downloaded + len ≤ item.total_bytes)
        · rw [chunkStep_progress_zero item len (by omega)]
          exact h2 (by omega)
      -- The progress did not decrease at this chunk.
      have hlink : item.progress ≤ (chunkStep item len).progress := by
        by_cases hT : 0 < item.total_bytes
        · rw [chunkStep_progress_pos item len hT]
          calc item.progress
              ≤ (item.bytes_downloaded : ℚ) / (item.total_bytes : ℚ) := h1 hT
            _ ≤ ((item.bytes_downloaded + len : ℕ) : ℚ) / (item.total_bytes : ℚ) := by
                gcongr
                exact_mod_cast Nat.le_add_right _ _
        · rw [chunkStep_progress_zero item len (by omega)]
      obtain ⟨ihb, ihc, ih1, ih2, ih3, ih4⟩ := ih (chunkStep item len) h0' h1' h2' h3'
      refine ⟨?_, ?_, ?_, ?_, ?_, ?_⟩
      · intro o ho
        simp only [chunkLoop, List.mem_cons] at ho
        rcases ho with rfl | ho
        · exact ⟨h0', hone⟩
        · exact ihb o ho
      · simp only [chunkLoop, List.map_cons, List.chain'_cons]
        exact ⟨hlink, ihc⟩
      · simp only [chunkLoop]
        rw [ih1, eb, List.sum_cons]
        omega
      · simp only [chunkLoop]
        rw [ih2, et]
      · simp only [chunkLoop]
        rw [ih3, es]
      · simp only [chunkLoop]
        rw [ih4, ee]

theorem process_queue_get? (s : QueueState) (i : ℕ) :
    (process_queue s).queue.get? i = s.queue.get? i ∨
    ∃ it, s.queue.get? i = some it ∧
      (process_queue s).queue.get? i =
        some { it with status := DownloadStatus.downloading } :=
  processLoop_get? _ s i

theorem sum_take_le (l : List ℕ) (k : ℕ) : (l.take k).sum ≤ l.sum := by
  conv_rhs => rw [← List.take_append_drop k l]
  rw [List.sum_append]
  exact Nat.le_add_right _ _

theorem chunkLoop_applyCL_spec (item : DownloadItem) (resp : Response)
    (cs : List ℕ) (hb : item.bytes_downloaded = 0) (hp : item.progress = 0)
    (ht : item.total_bytes = 0)
    (hsum : ∀ n, resp.contentLength = some n → cs.sum ≤ n) :
    (∀ o ∈ (chunkLoop (applyContentLength item resp) cs).2,
      0 ≤ o.progress ∧ o.progress ≤ 1) ∧
    List.Chain' (fun a b => a ≤ b)
      ((chunkLoop (applyContentLength item resp) cs).2.map
        (fun o => o.progress)) ∧
    (chunkLoop (applyContentLength item resp) cs).1.bytes_downloaded
      = cs.sum := by
  cases hc : resp.contentLength with
  | none =>
      have e : applyContentLength item resp = item := by
        unfold applyContentLength
        rw [hc]
      rw [e]
      obtain ⟨hobs, hchain, hbytes, -, -, -⟩ :=
        chunkLoop_spec cs item (by rw [hp])
          (fun hT => absurd hT (by rw [ht]; exact lt_irrefl 0))
          (fun _ => by rw [hp]; norm_num)
          (fun hT => absurd hT (by rw [ht]; exact lt_irrefl 0))
      exact ⟨hobs, hchain.tail, by rw [hbytes, hb, Nat.zero_add]⟩
  | some n =>
      have e : applyContentLength item resp = { item with total_bytes := n } := by
        unfold applyContentLength
        rw [hc]
      rw [e]
      obtain ⟨hobs, hchain, hbytes, -, -, -⟩ :=
        chunkLoop_spec cs { item with total_bytes := n }
          (by rw [hp])
          (fun hT => by
            rw [hp, hb]
            positivity)
          (fun _ => by rw [hp]; norm_num)
          (fun hT => by
            rw [hb]
            simpa using hsum n hc)
      exact ⟨hobs, hchain.tail, by rw [hbytes, hb, Nat.zero_add]⟩

/-! Claims. -/

/-- C1: the claim states that after every operation at most
`max_concurrent` items are Downloading, including when the same url is
added again while a worker for it is already active.  The code violates
this: `_active` is keyed by url, so admitting a duplicate url overwrites
the existing map entry instead of adding one, and `len(self._active)`
undercounts the running workers.  After `add("u")` three times with
`max_concurrent = 2` (and no worker having reached a suspension point),
three items are Downloading while the active map holds a single entry. -/
theorem add_duplicate_url_exceeds_max_concurrent :
    dupTriple.max_concurrent = 2 ∧
    dupTriple.active.length = 1 ∧
    (dupTriple.queue.filter
      (fun it => it.status = DownloadStatus.downloading)).length = 3 := by
  decide

/-- C2: the claim states `cancel_all()` with A active and P pending
returns A + P (5 for 2 active + 3 pending).  The code counts every
active download twice: once when cancelling its task in the `_active`
loop and once more when its Downloading queue item is flipped in the
queue loop, returning 2 + (2 + 3) = 7.  The second half of the claim
(every item ends Cancelled) does hold. -/
theorem cancel_all_double_counts_active :
    fiveState.active.length = 2 ∧
    (fiveState.queue.filter
      (fun it => it.status = DownloadStatus.downloading)).length = 2 ∧
    (fiveState.queue.filter
      (fun it => it.status = DownloadStatus.pending)).length = 3 ∧
    (cancel_all fiveState).2 = 7 ∧
    (∀ it ∈ (cancel_all fiveState).1.queue,
      it.status = DownloadStatus.cancelled) := by
  decide

/-- C3: the claim states that no operation ever changes a terminal
status.  The code violates it: after `add("u")` twice (cap 2), the
second admission overwrites `_active["u"]`, orphaning the first worker.
`cancel("u")` then cancels the registered task (the second) and flips
item 0 — the first cancellable match — to Cancelled, but the first
worker was never cancelled (its `cancelled` flag is false) and keeps
running; when it completes it sets its item back to Completed, moving
the item out of the terminal Cancelled state. -/
theorem orphaned_worker_resurrects_cancelled_item :
    (dupPairCancelled.queue.get? 0).map (fun it => it.status)
      = some DownloadStatus.cancelled ∧
    (dupPairCancelled.workers.find? (fun w => w.task = 0)).map
      (fun w => w.cancelled) = some false ∧
    ((workerFinish dupPairCancelled 0 WorkerOutcome.success).queue.get? 0).map
      (fun it => it.status) = some DownloadStatus.completed := by
  decide

/-- C5 counterexample: the claim states `progress_percent =
round(progress * 100)`.  At `progress = 0.999` (inside `[0,1]`) the code
computes `int(0.999 * 100) = 99`, while `round(0.999 * 100) = 100`. -/
theorem progress_percent_truncates_not_rounds :
    0 ≤ itemNearDone.progress ∧ itemNearDone.progress ≤ 1 ∧
    itemNearDone.progress_percent = 99 ∧
    round (itemNearDone.progress * 100) = 100 := by
  have hp : itemNearDone.progress = 999/1000 := rfl
  refine ⟨by rw [hp]; norm_num, by rw [hp]; norm_num, ?_, ?_⟩
  · show pyInt (itemNearDone.progress * 100) = 99
    rw [hp, show ((999:ℚ)/1000) * 100 = 999/10 by norm_num]
    simp only [pyInt]
    rw [if_pos (by norm_num), Int.floor_eq_iff]
    norm_num
  · rw [hp, round_eq,
      show ((999:ℚ)/1000) * 100 + 1/2 = 1004/10 by norm_num,
      Int.floor_eq_iff]
    norm_num

/-- C5 (amended): for every `DownloadItem` with `progress` in `[0,1]`,
`progress_percent` equals `⌊progress * 100⌋` (Python `int()` truncates
toward zero, which on nonnegative values is the floor), not
`round(progress * 100)`. -/
theorem progress_percent_eq_floor (item : DownloadItem)
    (h0 : 0 ≤ item.progress) (h1 : item.progress ≤ 1) :
    item.progress_percent = ⌊item.progress * 100⌋ := by
  have h : (0:ℚ) ≤ item.progress * 100 := by positivity
  show pyInt (item.progress * 100) = ⌊item.progress * 100⌋
  simp only [pyInt]
  rw [if_pos h]

/-- Witness for C5 (amended) at `progress = 1/2`. -/
theorem progress_percent_eq_floor_witness :
    (0:ℚ) ≤ 1/2 ∧ (1/2:ℚ) ≤ 1 ∧
    DownloadItem.progress_percent
        { url := "u", destination := "d", progress := 1/2 }
      = ⌊((1/2:ℚ) * 100)⌋ :=
  ⟨by norm_num, by norm_num,
    progress_percent_eq_floor
      { url := "u", destination := "d", progress := 1/2 }
      (by norm_num) (by norm_num)⟩

/-- C6: `cancel(url)` returns true iff some item with that url is
Pending or Downloading at the time of the call, and every item in a
terminal state is left unchanged (at its position, with all fields
intact). -/
theorem cancel_true_iff_cancellable_match (s : QueueState) (url : String) :
    ((cancel s url).2 = true ↔
      ∃ it ∈ s.queue, it.url = url ∧
        (it.status = DownloadStatus.pending ∨
          it.status = DownloadStatus.downloading)) ∧
    (∀ i it, s.queue.get? i = some it → terminal it.status = true →
      (cancel s url).1.queue.get? i = some it) := by
  obtain ⟨hq, hr⟩ := cancel_queue_eq s url
  constructor
  · rw [hr, cancelScan_true_iff]
    constructor
    · rintro ⟨it, hit, hu, hc⟩
      exact ⟨it, hit, hu, (cancellable_iff _).mp hc⟩
    · rintro ⟨it, hit, hu, hc⟩
      exact ⟨it, hit, hu, (cancellable_iff _).mpr hc⟩
  · intro i it hi ht
    rw [hq]
    exact cancelScan_get?_of_not_match _ _ _ _ hi
      (fun hmatch => by
        rw [terminal_false_of_cancellable _ ht] at hmatch
        exact Bool.false_ne_true hmatch.2)

/-- Witness for C6: cancelling the url of a Completed item leaves the
item untouched (and, per the iff, returns false). -/
theorem cancel_true_iff_cancellable_match_witness :
    (cancel { download_dir := "dl",
              queue := [{ url := "u", destination := "d",
                          status := DownloadStatus.completed }] } "u").1.queue.get? 0
      = some { url := "u", destination := "d",
               status := DownloadStatus.completed } :=
  (cancel_true_iff_cancellable_match
    { download_dir := "dl",
      queue := [{ url := "u", destination := "d",
                  status := DownloadStatus.completed }] } "u").2 0 _ rfl rfl

/-- C7: `clear_completed()` keeps exactly the non-terminal items in
their relative order (the new queue is the filter of the old one, a
sublist), returns the number of terminal items removed, and leaves the
rest of the state (active map, configuration) untouched. -/
theorem clear_completed_removes_exactly_terminal (s : QueueState) :
    (clear_completed s).1.queue
      = s.queue.filter (fun item => ¬ terminal item.status) ∧
    (clear_completed s).2
      = (s.queue.filter (fun item => terminal item.status)).length ∧
    List.Sublist (clear_completed s).1.queue s.queue ∧
    (clear_completed s).1.active = s.active ∧
    (clear_completed s).1.workers = s.workers ∧
    (clear_completed s).1.max_concurrent = s.max_concurrent ∧
    (clear_completed s).1.download_dir = s.download_dir :=
  ⟨rfl, length_sub_filter_not_terminal s.queue,
    List.filter_sublist s.queue, rfl, rfl, rfl, rfl⟩

/-- C10: with several items of the same url in a cancellable state, one
`cancel(url)` call flips exactly the earliest-inserted cancellable match
(the new queue is `set` at that position) and, when no item matches,
changes nothing. -/
theorem cancel_flips_only_first_match (s : QueueState) (url : String) :
    (∀ j it, s.queue.get? j = some it → it.url = url →
      (it.status = DownloadStatus.pending ∨
        it.status = DownloadStatus.downloading) →
      (∀ i it₂, i < j → s.queue.get? i = some it₂ →
        ¬(it₂.url = url ∧
          (it₂.status = DownloadStatus.pending ∨
            it₂.status = DownloadStatus.downloading))) →
      (cancel s url).1.queue
        = s.queue.set j { it with status := DownloadStatus.cancelled }) ∧
    ((∀ it ∈ s.queue,
        ¬(it.url = url ∧
          (it.status = DownloadStatus.pending ∨
            it.status = DownloadStatus.downloading))) →
      (cancel s url).1.queue = s.queue) := by
  obtain ⟨hq, -⟩ := cancel_queue_eq s url
  constructor
  · intro j it hj hu hc hbefore
    rw [hq]
    apply cancelScan_set_of_first_match _ _ _ _ hj ⟨hu, (cancellable_iff _).mpr hc⟩
    intro i it₂ hi h₂ hmatch
    exact hbefore i it₂ hi h₂ ⟨hmatch.1, (cancellable_iff _).mp hmatch.2⟩
  · intro h
    have hid := cancelScan_id_of_no_match s.queue url
      (fun it hit hmatch => h it hit ⟨hmatch.1, (cancellable_iff _).mp hmatch.2⟩)
    rw [hq, hid]

/-- Witness for C10: two Pending items with the same url; `cancel` flips
only the first. -/
theorem cancel_flips_only_first_match_witness :
    (cancel { download_dir := "dl",
              queue := [{ url := "u", destination := "a" },
                        { url := "u", destination := "b" }] } "u").1.queue
      = [{ url := "u", destination := "a",
           status := DownloadStatus.cancelled },
         { url := "u", destination := "b" }] :=
  (cancel_flips_only_first_match
    { download_dir := "dl",
      queue := [{ url := "u", destination := "a" },
                { url := "u", destination := "b" }] } "u").1 0 _ rfl rfl
    (Or.inl rfl) (fun i it₂ hi _ => absurd hi (Nat.not_lt_zero i))

/-- C8 counterexample: the claim states the returned item has status
Pending.  `add` runs admission control before returning, so on a queue
with free capacity (here the default `max_concurrent = 3`) the returned
item is already Downloading.  The destination derivation itself behaves
as claimed: the url ends in `/`, so the filename falls back to
`download_0`. -/
theorem add_returns_downloading_item :
    ((add (qInit 3) "https://e.com/" none none).1.queue.get?
        (add (qInit 3) "https://e.com/" none none).2).map (fun it => it.status)
      = some DownloadStatus.downloading ∧
    ((add (qInit 3) "https://e.com/" none none).1.queue.get?
        (add (qInit 3) "https://e.com/" none none).2).map
          (fun it => it.destination)
      = some "dl/download_0" ∧
    DownloadStatus.downloading ≠ DownloadStatus.pending := by
  decide

/-- C8 (amended): `add(url)` with filename omitted appends an item whose
destination is `download_dir` joined with the filename derived from the
last path segment of the url (falling back to `download_N` when that
segment is empty), with progress 0, no bytes, no error; the item is
created Pending, and since `add` invokes admission control before
returning, the returned item is either still Pending or already
Downloading. -/
theorem add_spec (s : QueueState) (url : String) (eid : Option ℤ) :
    ∃ it, (add s url none eid).1.queue.get? (add s url none eid).2 = some it ∧
      it.url = url ∧
      it.destination
        = s.download_dir ++ "/" ++ deriveFilename url s.queue.length ∧
      it.progress = 0 ∧ it.bytes_downloaded = 0 ∧ it.error = none ∧
      it.episode_id = eid ∧
      (it.status = DownloadStatus.pending ∨
        it.status = DownloadStatus.downloading) := by
  have key : add s url none eid
      = (process_queue { s with queue := s.queue ++
          [{ url := url,
             destination :=
               s.download_dir ++ "/" ++ deriveFilename url s.queue.length,
             episode_id := eid }] }, s.queue.length) := rfl
  rw [key]
  have hbase : (s.queue ++
      [{ url := url,
         destination :=
           s.download_dir ++ "/" ++ deriveFilename url s.queue.length,
         episode_id := eid : DownloadItem }]).get? s.queue.length
      = some { url := url,
               destination :=
                 s.download_dir ++ "/" ++ deriveFilename url s.queue.length,
               episode_id := eid } := List.get?_concat_length _ _
  rcases process_queue_get?
      { s with queue := s.queue ++
          [{ url := url,
             destination :=
               s.download_dir ++ "/" ++ deriveFilename url s.queue.length,
             episode_id := eid }] } s.queue.length with h | ⟨it₀, hit₀, h⟩
  · exact ⟨_, h.trans hbase, rfl, rfl, rfl, rfl, rfl, rfl, Or.inl rfl⟩
  · rw [hbase] at hit₀
    simp only [Option.some.injEq] at hit₀
    subst hit₀
    exact ⟨_, h, rfl, rfl, rfl, rfl, rfl, rfl, Or.inr rfl⟩

/-- C9: a worker outcome sets `error` only when the item ends Failed,
and the Failed message follows the taxonomy: `"HTTP <status>"` for a
non-2xx response, the transport message for a transport failure,
`"IO error: <message>"` for a filesystem failure; Completed and
Cancelled outcomes leave `error = None`. -/
theorem worker_error_taxonomy (item : DownloadItem) (h : item.error = none) :
    ((finishItem item WorkerOutcome.success).status
        = DownloadStatus.completed ∧
      (finishItem item WorkerOutcome.success).error = none) ∧
    ((finishItem item WorkerOutcome.cancelledError).status
        = DownloadStatus.cancelled ∧
      (finishItem item WorkerOutcome.cancelledError).error = none) ∧
    (∀ c, (finishItem item (WorkerOutcome.httpStatusError c)).status
        = DownloadStatus.failed ∧
      (finishItem item (WorkerOutcome.httpStatusError c)).error
        = some ("HTTP " ++ toString c)) ∧
    (∀ m, (finishItem item (WorkerOutcome.requestError m)).status
        = DownloadStatus.failed ∧
      (finishItem item (WorkerOutcome.requestError m)).error = some m) ∧
    (∀ m, (finishItem item (WorkerOutcome.osError m)).status
        = DownloadStatus.failed ∧
      (finishItem item (WorkerOutcome.osError m)).error
        = some ("IO error: " ++ m)) ∧
    (∀ o, (finishItem item o).error ≠ none →
      (finishItem item o).status = DownloadStatus.failed) := by
  refine ⟨⟨rfl, h⟩, ⟨rfl, h⟩, fun c => ⟨rfl, rfl⟩, fun m => ⟨rfl, rfl⟩,
    fun m => ⟨rfl, rfl⟩, ?_⟩
  intro o he
  cases o with
  | success => exact absurd h he
  | cancelledError => exact absurd h he
  | httpStatusError c => rfl
  | requestError m => rfl
  | osError m => rfl

/-- Witness for C9: a 404 response on a fresh item yields a Failed item
with error `"HTTP 404"`. -/
theorem worker_error_taxonomy_witness :
    (finishItem { url := "u", destination := "d" }
        (WorkerOutcome.httpStatusError 404)).status = DownloadStatus.failed ∧
    (finishItem { url := "u", destination := "d" }
        (WorkerOutcome.httpStatusError 404)).error = some "HTTP 404" := by
  have h := (worker_error_taxonomy { url := "u", destination := "d" } rfl).2.2.1 404
  exact ⟨h.1, h.2.trans (by decide)⟩

/-- C4: for a worker on a fresh item (no bytes, progress 0, total
unknown until the header is read), with the body framed to the
`content-length` header when one is present: on the success path every
chunk-callback snapshot has progress in `[0,1]`, the observed progress
sequence is non-decreasing, and the final item is Completed with
progress exactly 1 and `bytes_downloaded` equal to the body size
(1000 for `content-length: 1000`, see the witness); and a worker
interrupted after any `k` chunks (the failure and cancellation arms)
observed only in-bounds, non-decreasing snapshots up to that point. -/
theorem download_progress_monotone_bounded (item : DownloadItem)
    (resp : Response) (hb : item.bytes_downloaded = 0)
    (hp : item.progress = 0) (ht : item.total_bytes = 0)
    (hcl : ∀ n, resp.contentLength = some n → resp.chunks.sum = n) :
    (∀ o ∈ (downloadSuccess item resp).2, 0 ≤ o.progress ∧ o.progress ≤ 1) ∧
    List.Chain' (fun a b => a ≤ b)
      ((downloadSuccess item resp).2.map (fun o => o.progress)) ∧
    (downloadSuccess item resp).1.status = DownloadStatus.completed ∧
    (downloadSuccess item resp).1.progress = 1 ∧
    (downloadSuccess item resp).1.bytes_downloaded = resp.chunks.sum ∧
    (∀ k,
      (∀ o ∈ (chunkLoop (applyContentLength item resp)
          (resp.chunks.take k)).2, 0 ≤ o.progress ∧ o.progress ≤ 1) ∧
      List.Chain' (fun a b => a ≤ b)
        ((chunkLoop (applyContentLength item resp)
          (resp.chunks.take k)).2.map (fun o => o.progress))) := by
  obtain ⟨hobs, hchain, hbytes⟩ :=
    chunkLoop_applyCL_spec item resp resp.chunks hb hp ht
      (fun n h => le_of_eq (hcl n h))
  refine ⟨hobs, hchain, rfl, rfl, hbytes, ?_⟩
  intro k
  obtain ⟨hobs', hchain', -⟩ :=
    chunkLoop_applyCL_spec item resp (resp.chunks.take k) hb hp ht
      (fun n h => le_trans (sum_take_le resp.chunks k) (le_of_eq (hcl n h)))
  exact ⟨hobs', hchain'⟩

/-- Witness for C4: Scenario B of the spec — `content-length: 1000`,
ten chunks of 100 bytes — ends Completed with progress 1 and exactly
1000 bytes downloaded. -/
theorem download_progress_monotone_bounded_witness :
    (downloadSuccess freshItem resp1000).1.status
      = DownloadStatus.completed ∧
    (downloadSuccess freshItem resp1000).1.progress = 1 ∧
    (downloadSuccess freshItem resp1000).1.bytes_downloaded = 1000 := by
  have h := download_progress_monotone_bounded freshItem resp1000 rfl rfl rfl
    (fun n hn => by
      simp only [resp1000, Option.some.injEq] at hn
      subst hn
      decide)
  exact ⟨h.2.2.1, h.2.2.2.1, by rw [h.2.2.2.2.1]; decide⟩

end Feedback
